import Mathlib

/-!
Verification development for the address-screening engine in
`src/examples/screen_address.py`.

Modelling conventions:
* A Python string is modelled as its list of Unicode code points
  (`PyStr := List Nat`).  All strings the engine manipulates (chain tags,
  addresses, reason tags) are ASCII, so `str.lower`, `str.upper` and
  `str.strip` are modelled on the ASCII range: case mapping moves only
  `A`–`Z` / `a`–`z`, and `strip` removes the ASCII whitespace code points.
* Python's `re.match` with a pattern anchored by `^...$` is modelled as a
  Bool-valued total matcher on the whole string.  Python's `$` would also
  accept one trailing newline, but both regexes here are only ever applied
  to `str.strip()`-ed strings, which cannot end in a newline, so
  end-of-string is the faithful reading on every reachable input.
* The Python `set` of `(chain, address)` tuples is a `Finset (PyStr × PyStr)`.
* A fallible load is an `Except String` value; a Python `KeyError` raised
  by `item["chain"]` / `item["address"]` becomes an `Except.error`.
-/

/-- A Python string, modelled as its list of Unicode code points. -/
abbrev PyStr := List Nat

/-- Code points of a Lean string literal, for writing `PyStr` constants. -/
def pystr (s : String) : PyStr := s.data.map Char.toNat

/-- Python whitespace test used by `str.strip()`: space, tab, newline,
carriage return, vertical tab, form feed (ASCII range). -/
def pyIsSpace (c : Nat) : Bool :=
  decide (c = 32 ∨ c = 9 ∨ c = 10 ∨ c = 13 ∨ c = 11 ∨ c = 12)

/-- Python `str.lower()` on one code point (ASCII range: `A`–`Z` ↦ `a`–`z`). -/
def pyLowerChar (c : Nat) : Nat := if 65 ≤ c ∧ c ≤ 90 then c + 32 else c

/-- Python `str.upper()` on one code point (ASCII range: `a`–`z` ↦ `A`–`Z`). -/
def pyUpperChar (c : Nat) : Nat := if 97 ≤ c ∧ c ≤ 122 then c - 32 else c

/-- Python `str.lower()`. -/
def pyLower (s : PyStr) : PyStr := s.map pyLowerChar

/-- Python `str.upper()`. -/
def pyUpper (s : PyStr) : PyStr := s.map pyUpperChar

/-- Python `str.strip()`: drop leading and trailing whitespace. -/
def pyStrip (s : PyStr) : PyStr :=
  ((s.dropWhile pyIsSpace).reverse.dropWhile pyIsSpace).reverse

/-- The EVM-family chain tags of lines 59 and 81:
`{"ETH", "EVM", "ARB", "BSC", "OP", "MATIC"}`. -/
def evmChains : List PyStr :=
  [pystr "ETH", pystr "EVM", pystr "ARB", pystr "BSC", pystr "OP", pystr "MATIC"]

/-- The Bitcoin chain tags of lines 63 and 83: `{"XBT", "BTC"}`. -/
def btcChains : List PyStr := [pystr "XBT", pystr "BTC"]

/-- Hexadecimal-digit code point: the character class `[a-fA-F0-9]`. -/
def isHexDigit (c : Nat) : Bool :=
  decide ((48 ≤ c ∧ c ≤ 57) ∨ (97 ≤ c ∧ c ≤ 102) ∨ (65 ≤ c ∧ c ≤ 70))

/-- Matcher for `EVM_RE = ^0x[a-fA-F0-9]{40}$` (line 47): a literal `0x`
followed by exactly 40 hexadecimal characters. -/
def EVM_RE (l : PyStr) : Bool :=
  match l with
  | c0 :: c1 :: rest =>
    c0 == 48 && c1 == 120 && decide (rest.length = 40) && rest.all isHexDigit
  | _ => false

/-- Lower-case-alphanumeric code point: the character class `[a-z0-9]`. -/
def isLowerAlnum (c : Nat) : Bool :=
  decide ((97 ≤ c ∧ c ≤ 122) ∨ (48 ≤ c ∧ c ≤ 57))

/-- Body check shared by the three bech32 alternatives: 20–90 characters
from `[a-z0-9]`. -/
def bech32Body (rest : PyStr) : Bool :=
  decide (20 ≤ rest.length) && decide (rest.length ≤ 90) && rest.all isLowerAlnum

/-- Matcher for `BTC_BECH32_RE = ^(bc1|tb1|bcrt1)[a-z0-9]{20,90}$` (line 48).
The source compiles it with `re.IGNORECASE` but only ever applies it to an
already lower-cased string (line 84), on which the case-insensitive and
case-sensitive readings agree. -/
def BTC_BECH32_RE (l : PyStr) : Bool :=
  if (pystr "bc1").isPrefixOf l then bech32Body (l.drop 3)
  else if (pystr "tb1").isPrefixOf l then bech32Body (l.drop 3)
  else if (pystr "bcrt1").isPrefixOf l then bech32Body (l.drop 5)
  else false

/-- Base58 code point: the character class `[a-km-zA-HJ-NP-Z1-9]`. -/
def isBase58 (c : Nat) : Bool :=
  decide ((97 ≤ c ∧ c ≤ 107) ∨ (109 ≤ c ∧ c ≤ 122) ∨ (65 ≤ c ∧ c ≤ 72) ∨
          (74 ≤ c ∧ c ≤ 78) ∨ (80 ≤ c ∧ c ≤ 90) ∨ (49 ≤ c ∧ c ≤ 57))

/-- Matcher for `BTC_BASE58_RE = ^[13][a-km-zA-HJ-NP-Z1-9]{25,34}$` (line 49). -/
def BTC_BASE58_RE (l : PyStr) : Bool :=
  match l with
  | c :: rest =>
    (c == 49 || c == 51) && decide (25 ≤ rest.length) &&
      decide (rest.length ≤ 34) && rest.all isBase58
  | [] => false

/-- The tuple test `a.lower().startswith(("bc1", "tb1", "bcrt1"))` of line 65,
applied to an already lower-cased string. -/
def hasBech32Hrp (l : PyStr) : Bool :=
  (pystr "bc1").isPrefixOf l || (pystr "tb1").isPrefixOf l ||
    (pystr "bcrt1").isPrefixOf l

/-- The function `canonicalize(chain, address)` of lines 52–71. -/
def canonicalize (chain address : PyStr) : PyStr :=
  let a := pyStrip address
  let c := pyStrip (pyUpper chain)
  if c ∈ evmChains then
    pyLower a
  else if c ∈ btcChains then
    if hasBech32Hrp (pyLower a) then pyLower a else a
  else a

/-- The function `syntactic_validate(chain, address)` of lines 74–85. -/
def syntactic_validate (chain address : PyStr) : Bool :=
  let c := pyStrip (pyUpper chain)
  let a := pyStrip address
  if c ∈ evmChains then EVM_RE a
  else if c ∈ btcChains then BTC_BECH32_RE (pyLower a) || BTC_BASE58_RE a
  else true

/-- The frozen dataclass `ListVersion` of lines 28–33.  The
`retrieved_at_utc` timestamp is kept as its ISO-8601 source string; the
claims under study never inspect it, only carry it through. -/
structure ListVersion where
  source : PyStr
  retrieved_at_utc : PyStr
  sha256 : PyStr
  uri : PyStr
deriving DecidableEq, Repr

/-- The frozen dataclass `ScreenResult` of lines 36–43.  The Python field
`match` is a reserved word in Lean and is rendered `matched`. -/
structure ScreenResult where
  address : PyStr
  chain : PyStr
  matched : Bool
  risk_score : Int
  reason : PyStr
  list_version : Option ListVersion := none
deriving DecidableEq, Repr

/-- The function `screen_exact_match(chain, address, sanctioned_set,
list_version)` of lines 88–137. -/
def screen_exact_match (chain address : PyStr)
    (sanctioned_set : Finset (PyStr × PyStr)) (list_version : ListVersion) :
    ScreenResult :=
  if syntactic_validate chain address then
    let addr_norm := canonicalize chain address
    if (pyUpper chain, addr_norm) ∈ sanctioned_set then
      { address := address, chain := chain, matched := true, risk_score := 100,
        reason := pystr "exact_match_authoritative_sanctions_address",
        list_version := some list_version }
    else
      { address := address, chain := chain, matched := false, risk_score := 0,
        reason := pystr "no_exact_match", list_version := some list_version }
  else
    { address := address, chain := chain, matched := false, risk_score := 0,
      reason := pystr "invalid_address_syntax", list_version := some list_version }

/-- One element of the `addresses` array of the input JSON document; a field
is `none` when the key is absent. -/
structure AddressEntry where
  chain : Option PyStr
  address : Option PyStr
deriving Repr

/-- The `metadata` block of the input JSON document; a field is `none` when
the key is absent. -/
structure MetadataDoc where
  source : Option PyStr
  retrieved_at_utc : Option PyStr
  sha256 : Option PyStr
  uri : Option PyStr
deriving Repr

/-- The parsed JSON document handed to the loader; a top-level key that is
absent is `none`. -/
structure ListDoc where
  metadata : Option MetadataDoc
  addresses : Option (List AddressEntry)
deriving Repr

/-- The loop of lines 169–174: each entry's `item["chain"]` / `item["address"]`
access raises `KeyError` when the key is absent, modelled as `Except.error`;
otherwise the canonicalized pair is inserted into the accumulating set. -/
def loadEntries : List AddressEntry → Finset (PyStr × PyStr) →
    Except String (Finset (PyStr × PyStr))
  | [], acc => .ok acc
  | item :: rest, acc =>
    match item.chain with
    | none => .error "KeyError: chain"
    | some ch =>
      match item.address with
      | none => .error "KeyError: address"
      | some ad => loadEntries rest (insert (pyUpper ch, canonicalize ch ad) acc)

/-- The function `load_sanctioned_addresses` of lines 140–176, on an already
parsed document.  `data.get("metadata", {})` and the `metadata.get(...)`
defaults become `Option.getD`; `data.get("addresses", [])` likewise defaults
to the empty list.  `datetime.fromisoformat` is modelled as keeping the raw
string: it can only raise on a malformed supplied timestamp, a path no claim
exercises, and the default `"2000-01-01T00:00:00"` used when the field is
absent parses successfully in the source. -/
def load_sanctioned_addresses (doc : ListDoc) :
    Except String (Finset (PyStr × PyStr) × ListVersion) :=
  let md := doc.metadata.getD ⟨none, none, none, none⟩
  let lv : ListVersion :=
    { source := md.source.getD (pystr "UNKNOWN"),
      retrieved_at_utc := md.retrieved_at_utc.getD (pystr "2000-01-01T00:00:00"),
      sha256 := md.sha256.getD (pystr ""),
      uri := md.uri.getD (pystr "") }
  (loadEntries (doc.addresses.getD []) ∅).map (fun s => (s, lv))

/-! ### Character-level lemmas -/

theorem pyLowerChar_idem (c : Nat) : pyLowerChar (pyLowerChar c) = pyLowerChar c := by
  by_cases h : 65 ≤ c ∧ c ≤ 90
  · simp only [pyLowerChar, if_pos h]
    rw [if_neg (by omega)]
  · simp only [pyLowerChar, if_neg h]

theorem pyLowerChar_pyUpperChar (c : Nat) :
    pyLowerChar (pyUpperChar c) = pyLowerChar c := by
  by_cases h : 97 ≤ c ∧ c ≤ 122
  · simp only [pyUpperChar, if_pos h, pyLowerChar]
    rw [if_pos (by omega), if_neg (by omega)]
    omega
  · simp only [pyUpperChar, if_neg h]

theorem pyIsSpace_pyLowerChar (c : Nat) : pyIsSpace (pyLowerChar c) = pyIsSpace c := by
  by_cases h : 65 ≤ c ∧ c ≤ 90
  · simp only [pyLowerChar, if_pos h, pyIsSpace]
    rw [decide_eq_decide]
    omega
  · simp only [pyLowerChar, if_neg h]

theorem isHexDigit_pyUpperChar (c : Nat) : isHexDigit (pyUpperChar c) = isHexDigit c := by
  by_cases h : 97 ≤ c ∧ c ≤ 122
  · simp only [pyUpperChar, if_pos h, isHexDigit]
    rw [decide_eq_decide]
    omega
  · simp only [pyUpperChar, if_neg h]

theorem isHexDigit_pyLowerChar (c : Nat) : isHexDigit (pyLowerChar c) = isHexDigit c := by
  by_cases h : 65 ≤ c ∧ c ≤ 90
  · simp only [pyLowerChar, if_pos h, isHexDigit]
    rw [decide_eq_decide]
    omega
  · simp only [pyLowerChar, if_neg h]

theorem pyIsSpace_eq_false_of_isHexDigit (c : Nat) (h : isHexDigit c = true) :
    pyIsSpace c = false := by
  simp only [isHexDigit, decide_eq_true_eq] at h
  simp only [pyIsSpace, decide_eq_false_iff_not]
  omega

/-! ### String-level lemmas -/

theorem pyLower_pyLower (l : PyStr) : pyLower (pyLower l) = pyLower l := by
  simp only [pyLower, List.map_map, Function.comp_def, pyLowerChar_idem]

theorem pyLower_pyUpper (l : PyStr) : pyLower (pyUpper l) = pyLower l := by
  simp only [pyLower, pyUpper, List.map_map, Function.comp_def, pyLowerChar_pyUpperChar]

theorem dropWhile_dropWhile (p : Nat → Bool) (l : List Nat) :
    (l.dropWhile p).dropWhile p = l.dropWhile p := by
  induction l with
  | nil => rfl
  | cons a t ih =>
    by_cases h : p a
    · simp [List.dropWhile_cons_of_pos h, ih]
    · simp [List.dropWhile_cons_of_neg h]

theorem dropWhile_left_of_append (p : Nat → Bool) (l₁ l₂ : List Nat)
    (h : (l₁ ++ l₂).dropWhile p = l₁ ++ l₂) : l₁.dropWhile p = l₁ := by
  cases l₁ with
  | nil => rfl
  | cons a t =>
    by_cases hp : p a
    · exfalso
      rw [List.cons_append, List.dropWhile_cons_of_pos hp] at h
      have hle := (List.dropWhile_suffix (l := t ++ l₂) p).length_le
      rw [h] at hle
      simp at hle
    · exact List.dropWhile_cons_of_neg hp

theorem pyStrip_pyStrip (l : PyStr) : pyStrip (pyStrip l) = pyStrip l := by
  unfold pyStrip
  set d1 := l.dropWhile pyIsSpace with hd1
  set d2 := (d1.reverse.dropWhile pyIsSpace).reverse with hd2
  have hsplit : d1 = d2 ++ (d1.reverse.takeWhile pyIsSpace).reverse := by
    have := List.takeWhile_append_dropWhile (p := pyIsSpace) (l := d1.reverse)
    calc d1 = d1.reverse.reverse := (List.reverse_reverse d1).symm
    _ = (d1.reverse.takeWhile pyIsSpace ++ d1.reverse.dropWhile pyIsSpace).reverse := by rw [this]
    _ = d2 ++ (d1.reverse.takeWhile pyIsSpace).reverse := by rw [List.reverse_append]
  have hd1fix : d1.dropWhile pyIsSpace = d1 := dropWhile_dropWhile pyIsSpace l
  have hd2fix : d2.dropWhile pyIsSpace = d2 := by
    apply dropWhile_left_of_append pyIsSpace d2 (d1.reverse.takeWhile pyIsSpace).reverse
    rw [← hsplit]
    exact hd1fix
  rw [hd2fix, hd2]
  rw [List.reverse_reverse, dropWhile_dropWhile]

theorem pyStrip_pyLower (l : PyStr) : pyStrip (pyLower l) = pyLower (pyStrip l) := by
  have hcomp : (pyIsSpace ∘ pyLowerChar) = pyIsSpace := by
    funext c
    exact pyIsSpace_pyLowerChar c
  unfold pyStrip pyLower
  rw [List.dropWhile_map, hcomp, ← List.map_reverse, List.dropWhile_map, hcomp,
    ← List.map_reverse]

theorem dropWhile_eq_self_of_all (p : Nat → Bool) (l : List Nat)
    (h : ∀ c ∈ l, p c = false) : l.dropWhile p = l := by
  cases l with
  | nil => rfl
  | cons a t =>
    apply List.dropWhile_cons_of_neg
    simp [h a (List.mem_cons_self a t)]

theorem pyStrip_eq_self_of_no_space (l : PyStr)
    (h : ∀ c ∈ l, pyIsSpace c = false) : pyStrip l = l := by
  unfold pyStrip
  rw [dropWhile_eq_self_of_all pyIsSpace l h,
    dropWhile_eq_self_of_all pyIsSpace l.reverse (by intro c hc; exact h c (List.mem_reverse.mp hc)),
    List.reverse_reverse]

/-! ### Branch lemmas for `canonicalize` and `syntactic_validate` -/

theorem canonicalize_evm {chain : PyStr} (a : PyStr)
    (h : pyStrip (pyUpper chain) ∈ evmChains) :
    canonicalize chain a = pyLower (pyStrip a) := by
  simp [canonicalize, h]

theorem canonicalize_btc {chain : PyStr} (a : PyStr)
    (h1 : pyStrip (pyUpper chain) ∉ evmChains)
    (h2 : pyStrip (pyUpper chain) ∈ btcChains) :
    canonicalize chain a =
      if hasBech32Hrp (pyLower (pyStrip a)) then pyLower (pyStrip a)
      else pyStrip a := by
  simp [canonicalize, h1, h2]

theorem canonicalize_other {chain : PyStr} (a : PyStr)
    (h1 : pyStrip (pyUpper chain) ∉ evmChains)
    (h2 : pyStrip (pyUpper chain) ∉ btcChains) :
    canonicalize chain a = pyStrip a := by
  simp [canonicalize, h1, h2]

theorem syntactic_validate_evm {chain : PyStr} (a : PyStr)
    (h : pyStrip (pyUpper chain) ∈ evmChains) :
    syntactic_validate chain a = EVM_RE (pyStrip a) := by
  simp [syntactic_validate, h]

theorem syntactic_validate_btc {chain : PyStr} (a : PyStr)
    (h1 : pyStrip (pyUpper chain) ∉ evmChains)
    (h2 : pyStrip (pyUpper chain) ∈ btcChains) :
    syntactic_validate chain a =
      (BTC_BECH32_RE (pyLower (pyStrip a)) || BTC_BASE58_RE (pyStrip a)) := by
  simp [syntactic_validate, h1, h2]

theorem syntactic_validate_other {chain : PyStr} (a : PyStr)
    (h1 : pyStrip (pyUpper chain) ∉ evmChains)
    (h2 : pyStrip (pyUpper chain) ∉ btcChains) :
    syntactic_validate chain a = true := by
  simp [syntactic_validate, h1, h2]

/-! ### Unfolding lemmas for `screen_exact_match` -/

theorem screen_eq_of_valid {chain a : PyStr} (S : Finset (PyStr × PyStr))
    (V : ListVersion) (h : syntactic_validate chain a = true) :
    screen_exact_match chain a S V =
      if (pyUpper chain, canonicalize chain a) ∈ S then
        { address := a, chain := chain, matched := true, risk_score := 100,
          reason := pystr "exact_match_authoritative_sanctions_address",
          list_version := some V }
      else
        { address := a, chain := chain, matched := false, risk_score := 0,
          reason := pystr "no_exact_match", list_version := some V } := by
  simp only [screen_exact_match, h, if_true]

theorem screen_eq_of_invalid {chain a : PyStr} (S : Finset (PyStr × PyStr))
    (V : ListVersion) (h : syntactic_validate chain a = false) :
    screen_exact_match chain a S V =
      { address := a, chain := chain, matched := false, risk_score := 0,
        reason := pystr "invalid_address_syntax", list_version := some V } := by
  simp [screen_exact_match, h]

/-- C1: on a syntactically valid input, `screen_exact_match` looks up the
pair `(upper(chain), canonicalize(chain, address))` in the sanctioned set;
on a hit it returns match true, risk score 100 and the authoritative-hit
reason, on a miss match false, risk score 0 and reason `no_exact_match`,
with the supplied list version attached in both cases. -/
theorem C1_exact_match_lookup (chain a : PyStr) (S : Finset (PyStr × PyStr))
    (V : ListVersion) (h : syntactic_validate chain a = true) :
    screen_exact_match chain a S V =
      if (pyUpper chain, canonicalize chain a) ∈ S then
        { address := a, chain := chain, matched := true, risk_score := 100,
          reason := pystr "exact_match_authoritative_sanctions_address",
          list_version := some V }
      else
        { address := a, chain := chain, matched := false, risk_score := 0,
          reason := pystr "no_exact_match", list_version := some V } :=
  screen_eq_of_valid S V h

theorem C1_exact_match_lookup_witness :
    syntactic_validate (pystr "ETH")
        (pystr "0x7f367cc41522ce07553e823bf3be79a889debe1b") = true ∧
    screen_exact_match (pystr "ETH")
        (pystr "0x7f367cc41522ce07553e823bf3be79a889debe1b")
        {(pystr "ETH", pystr "0x7f367cc41522ce07553e823bf3be79a889debe1b")}
        ⟨pystr "DEMO", pystr "2026-02-15T00:00:00", pystr "d", pystr "u"⟩ =
      if (pyUpper (pystr "ETH"),
          canonicalize (pystr "ETH")
            (pystr "0x7f367cc41522ce07553e823bf3be79a889debe1b")) ∈
          ({(pystr "ETH", pystr "0x7f367cc41522ce07553e823bf3be79a889debe1b")} :
            Finset (PyStr × PyStr)) then
        { address := pystr "0x7f367cc41522ce07553e823bf3be79a889debe1b",
          chain := pystr "ETH", matched := true, risk_score := 100,
          reason := pystr "exact_match_authoritative_sanctions_address",
          list_version :=
            some ⟨pystr "DEMO", pystr "2026-02-15T00:00:00", pystr "d", pystr "u"⟩ }
      else
        { address := pystr "0x7f367cc41522ce07553e823bf3be79a889debe1b",
          chain := pystr "ETH", matched := false, risk_score := 0,
          reason := pystr "no_exact_match",
          list_version :=
            some ⟨pystr "DEMO", pystr "2026-02-15T00:00:00", pystr "d", pystr "u"⟩ } :=
  ⟨by decide, C1_exact_match_lookup _ _ _ _ (by decide)⟩

/-- C2: on a syntactically invalid input, `screen_exact_match` returns the
record with match false, risk score 0 and reason `invalid_address_syntax`,
the supplied list version attached, and the result does not depend on the
sanctioned set at all. -/
theorem C2_invalid_syntax_short_circuit (chain a : PyStr)
    (S S' : Finset (PyStr × PyStr)) (V : ListVersion)
    (h : syntactic_validate chain a = false) :
    screen_exact_match chain a S V =
      { address := a, chain := chain, matched := false, risk_score := 0,
        reason := pystr "invalid_address_syntax", list_version := some V } ∧
    screen_exact_match chain a S V = screen_exact_match chain a S' V :=
  ⟨screen_eq_of_invalid S V h, by
    rw [screen_eq_of_invalid S V h, screen_eq_of_invalid S' V h]⟩

theorem C2_invalid_syntax_short_circuit_witness :
    syntactic_validate (pystr "ETH") (pystr "invalid") = false ∧
    (screen_exact_match (pystr "ETH") (pystr "invalid") ∅
        ⟨pystr "DEMO", pystr "2026-02-15T00:00:00", pystr "d", pystr "u"⟩ =
      { address := pystr "invalid", chain := pystr "ETH", matched := false,
        risk_score := 0, reason := pystr "invalid_address_syntax",
        list_version :=
          some ⟨pystr "DEMO", pystr "2026-02-15T00:00:00", pystr "d", pystr "u"⟩ } ∧
    screen_exact_match (pystr "ETH") (pystr "invalid") ∅
        ⟨pystr "DEMO", pystr "2026-02-15T00:00:00", pystr "d", pystr "u"⟩ =
      screen_exact_match (pystr "ETH") (pystr "invalid")
        {(pystr "ETH", pystr "0x7f367cc41522ce07553e823bf3be79a889debe1b")}
        ⟨pystr "DEMO", pystr "2026-02-15T00:00:00", pystr "d", pystr "u"⟩) :=
  ⟨by decide, C2_invalid_syntax_short_circuit _ _ _ _ _ (by decide)⟩

/-- C8: `canonicalize` is idempotent — canonicalizing an already canonical
address changes nothing, for every chain and every address string. -/
theorem C8_canonicalize_idempotent (chain a : PyStr) :
    canonicalize chain (canonicalize chain a) = canonicalize chain a := by
  by_cases h1 : pyStrip (pyUpper chain) ∈ evmChains
  · have hinner : canonicalize chain a = pyLower (pyStrip a) := canonicalize_evm _ h1
    rw [hinner, canonicalize_evm _ h1, pyStrip_pyLower, pyStrip_pyStrip,
      pyLower_pyLower]
  · by_cases h2 : pyStrip (pyUpper chain) ∈ btcChains
    · by_cases h3 : hasBech32Hrp (pyLower (pyStrip a)) = true
      · have hinner : canonicalize chain a = pyLower (pyStrip a) := by
          rw [canonicalize_btc _ h1 h2, if_pos h3]
        have e : pyStrip (pyLower (pyStrip a)) = pyLower (pyStrip a) := by
          rw [pyStrip_pyLower, pyStrip_pyStrip]
        rw [hinner, canonicalize_btc _ h1 h2, e, pyLower_pyLower, if_pos h3]
      · have hinner : canonicalize chain a = pyStrip a := by
          rw [canonicalize_btc _ h1 h2, if_neg h3]
        rw [hinner, canonicalize_btc _ h1 h2, pyStrip_pyStrip, if_neg h3]
    · have hinner : canonicalize chain a = pyStrip a := canonicalize_other _ h1 h2
      rw [hinner, canonicalize_other _ h1 h2, pyStrip_pyStrip]

/-- C10: every result of `screen_exact_match` carries risk score 100 exactly
when it matches and 0 otherwise, and returns the caller's address (the
original, untrimmed input string), chain and list version unchanged. -/
theorem C10_screen_result_invariants (chain a : PyStr)
    (S : Finset (PyStr × PyStr)) (V : ListVersion) :
    (screen_exact_match chain a S V).risk_score =
      (if (screen_exact_match chain a S V).matched then 100 else 0) ∧
    (screen_exact_match chain a S V).address = a ∧
    (screen_exact_match chain a S V).chain = chain ∧
    (screen_exact_match chain a S V).list_version = some V := by
  simp only [screen_exact_match]
  split_ifs <;> simp_all

/-- C3 counterexample: a bare string of 40 hexadecimal characters with no
`0x` is rejected by the validator on chain `ETH`, although the claim calls
the `0x` an optional part of the accepted form and says a bare
40-hex-character string is accepted. -/
theorem C3_counterexample :
    syntactic_validate (pystr "ETH")
      (pystr "aaaaaaaaaaaaaaaaaaaaaaaaaaaaaaaaaaaaaaaa") = false := by decide

/-- The address shape of the amended claim C3, stated from the claim's
words so it can be compared against the source-derived validator: a
mandatory literal `0x` followed by exactly 40 hexadecimal characters and
nothing else. -/
def evmMandatoryForm (a : PyStr) : Prop :=
  ∃ t : PyStr, t.length = 40 ∧ (∀ c ∈ t, isHexDigit c = true) ∧ a = pystr "0x" ++ t

/-- C3 (amended): for every EVM-family chain, the validator accepts a
trimmed address exactly when it is a mandatory `0x` followed by exactly 40
hexadecimal characters (case-insensitive) and nothing else; a bare
40-hex-character string without the `0x` is rejected. -/
theorem C3_evm_syntax (chain a : PyStr)
    (hc : pyStrip (pyUpper chain) ∈ evmChains) (ha : pyStrip a = a) :
    syntactic_validate chain a = true ↔ evmMandatoryForm a := by
  rw [syntactic_validate_evm a hc, ha]
  constructor
  · intro hm
    cases a with
    | nil => simp [EVM_RE] at hm
    | cons c0 t =>
      cases t with
      | nil => simp [EVM_RE] at hm
      | cons c1 rest =>
        simp only [EVM_RE, Bool.and_eq_true, beq_iff_eq, decide_eq_true_eq,
          List.all_eq_true] at hm
        obtain ⟨⟨⟨h0, h1⟩, hlen⟩, hall⟩ := hm
        refine ⟨rest, hlen, hall, ?_⟩
        rw [h0, h1]
        rfl
  · rintro ⟨t, hlen, hall, rfl⟩
    have he : pystr "0x" ++ t = 48 :: 120 :: t := rfl
    rw [he]
    simp only [EVM_RE, Bool.and_eq_true, beq_iff_eq, decide_eq_true_eq,
      List.all_eq_true]
    exact ⟨⟨⟨trivial, trivial⟩, hlen⟩, hall⟩

theorem C3_evm_syntax_witness :
    pyStrip (pyUpper (pystr "ETH")) ∈ evmChains ∧
    pyStrip (pystr "0x7f367cc41522ce07553e823bf3be79a889debe1b") =
      pystr "0x7f367cc41522ce07553e823bf3be79a889debe1b" ∧
    (syntactic_validate (pystr "ETH")
        (pystr "0x7f367cc41522ce07553e823bf3be79a889debe1b") = true ↔
      evmMandatoryForm (pystr "0x7f367cc41522ce07553e823bf3be79a889debe1b")) :=
  ⟨by decide, by decide, C3_evm_syntax _ _ (by decide) (by decide)⟩

/-- C4: the loader, handed a document whose `addresses` key is absent but
whose metadata block is fully well-formed, succeeds and produces the empty
sanctioned set; it does not fail as the claim (and the specification's
scenario 5) require. -/
theorem C4_missing_addresses_loads_empty :
    load_sanctioned_addresses
      ⟨some ⟨some (pystr "OFAC_SDN"), some (pystr "2026-02-15T00:00:00"),
             some (pystr "abc123"), some (pystr "https")⟩, none⟩ =
    Except.ok (∅, ⟨pystr "OFAC_SDN", pystr "2026-02-15T00:00:00",
                   pystr "abc123", pystr "https"⟩) := rfl

/-- C9 counterexample: the chain tag `"btc "` (trailing space) upper-cases
to `"BTC "`, which is neither an EVM-family tag nor one of the Bitcoin
tickers, so the claim says the validator must accept any address for it
and the canonicalizer must only trim; but the code also strips the chain
tag before dispatching, applies the Bitcoin rules, rejects `"x"`, and
lower-cases a bech32 address rather than leaving it trimmed. -/
theorem C9_counterexample :
    pyUpper (pystr "btc ") ∉ evmChains ∧ pyUpper (pystr "btc ") ∉ btcChains ∧
    syntactic_validate (pystr "btc ") (pystr "x") = false ∧
    canonicalize (pystr "btc ") (pystr "BC1QAAAAAAAAAAAAAAAAAAAA") ≠
      pyStrip (pystr "BC1QAAAAAAAAAAAAAAAAAAAA") := by decide

/-- C9 (amended): for every chain tag whose upper-cased and
whitespace-trimmed form is neither in the EVM-compatible family nor a
Bitcoin ticker (BTC/XBT), and every address string, the validator returns
true and the canonicalizer returns the trimmed address unchanged. -/
theorem C9_unknown_chain_passthrough (chain a : PyStr)
    (h1 : pyStrip (pyUpper chain) ∉ evmChains)
    (h2 : pyStrip (pyUpper chain) ∉ btcChains) :
    syntactic_validate chain a = true ∧ canonicalize chain a = pyStrip a :=
  ⟨syntactic_validate_other a h1 h2, canonicalize_other a h1 h2⟩

theorem C9_unknown_chain_passthrough_witness :
    pyStrip (pyUpper (pystr "TRX")) ∉ evmChains ∧
    pyStrip (pyUpper (pystr "TRX")) ∉ btcChains ∧
    (syntactic_validate (pystr "TRX") (pystr " abc ") = true ∧
      canonicalize (pystr "TRX") (pystr " abc ") = pyStrip (pystr " abc ")) :=
  ⟨by decide, by decide, C9_unknown_chain_passthrough _ _ (by decide) (by decide)⟩

/-- C5 counterexample: with a sanctioned set storing a Bitcoin address only
under the tag `"BTC"`, screening the same address as chain `"XBT"` misses
while screening it as `"BTC"` hits — the two tickers do not yield the same
match verdict, because the lookup key uses the raw upper-cased chain tag. -/
theorem C5_counterexample :
    ¬ ((screen_exact_match (pystr "XBT")
          (pystr "bc1qxy2kgdygjrsqtzq2n0yrf2493p83kkfjhx0wlh")
          {(pystr "BTC", pystr "bc1qxy2kgdygjrsqtzq2n0yrf2493p83kkfjhx0wlh")}
          ⟨pystr "DEMO", pystr "2026-02-15T00:00:00", pystr "d", pystr "u"⟩).matched =
        (screen_exact_match (pystr "BTC")
          (pystr "bc1qxy2kgdygjrsqtzq2n0yrf2493p83kkfjhx0wlh")
          {(pystr "BTC", pystr "bc1qxy2kgdygjrsqtzq2n0yrf2493p83kkfjhx0wlh")}
          ⟨pystr "DEMO", pystr "2026-02-15T00:00:00", pystr "d", pystr "u"⟩).matched) := by
  decide

/-- C5 (amended): screening with ticker `XBT` applies exactly the same
validation and canonicalization as `BTC`, but the set-lookup key keeps the
raw upper-cased tag, so the match verdicts agree precisely when the
sanctioned set does not distinguish the key `("XBT", c)` from
`("BTC", c)` on the canonical address `c`; on a set storing the address
only under `"BTC"` they differ. -/
theorem C5_xbt_btc_alias (a : PyStr) (S : Finset (PyStr × PyStr))
    (V : ListVersion)
    (h : (pystr "XBT", canonicalize (pystr "BTC") a) ∈ S ↔
         (pystr "BTC", canonicalize (pystr "BTC") a) ∈ S) :
    (screen_exact_match (pystr "XBT") a S V).matched =
      (screen_exact_match (pystr "BTC") a S V).matched := by
  have hxe : pyStrip (pyUpper (pystr "XBT")) ∉ evmChains := by decide
  have hxb : pyStrip (pyUpper (pystr "XBT")) ∈ btcChains := by decide
  have hbe : pyStrip (pyUpper (pystr "BTC")) ∉ evmChains := by decide
  have hbb : pyStrip (pyUpper (pystr "BTC")) ∈ btcChains := by decide
  have hval : syntactic_validate (pystr "XBT") a =
      syntactic_validate (pystr "BTC") a := by
    rw [syntactic_validate_btc a hxe hxb, syntactic_validate_btc a hbe hbb]
  have hcan : canonicalize (pystr "XBT") a = canonicalize (pystr "BTC") a := by
    rw [canonicalize_btc a hxe hxb, canonicalize_btc a hbe hbb]
  by_cases hv : syntactic_validate (pystr "BTC") a = true
  · have hv' : syntactic_validate (pystr "XBT") a = true := by rw [hval, hv]
    rw [screen_eq_of_valid S V hv', screen_eq_of_valid S V hv, hcan]
    have hux : pyUpper (pystr "XBT") = pystr "XBT" := by decide
    have hub : pyUpper (pystr "BTC") = pystr "BTC" := by decide
    rw [hux, hub]
    by_cases hm : (pystr "BTC", canonicalize (pystr "BTC") a) ∈ S
    · rw [if_pos (h.mpr hm), if_pos hm]
    · rw [if_neg (fun hx => hm (h.mp hx)), if_neg hm]
  · rw [Bool.not_eq_true] at hv
    have hv' : syntactic_validate (pystr "XBT") a = false := by rw [hval, hv]
    rw [screen_eq_of_invalid S V hv', screen_eq_of_invalid S V hv]

theorem C5_xbt_btc_alias_witness :
    ((pystr "XBT",
        canonicalize (pystr "BTC")
          (pystr "bc1qxy2kgdygjrsqtzq2n0yrf2493p83kkfjhx0wlh")) ∈
      (∅ : Finset (PyStr × PyStr)) ↔
     (pystr "BTC",
        canonicalize (pystr "BTC")
          (pystr "bc1qxy2kgdygjrsqtzq2n0yrf2493p83kkfjhx0wlh")) ∈
      (∅ : Finset (PyStr × PyStr))) ∧
    (screen_exact_match (pystr "XBT")
        (pystr "bc1qxy2kgdygjrsqtzq2n0yrf2493p83kkfjhx0wlh")
        ∅ ⟨pystr "DEMO", pystr "2026-02-15T00:00:00", pystr "d", pystr "u"⟩).matched =
      (screen_exact_match (pystr "BTC")
        (pystr "bc1qxy2kgdygjrsqtzq2n0yrf2493p83kkfjhx0wlh")
        ∅ ⟨pystr "DEMO", pystr "2026-02-15T00:00:00", pystr "d", pystr "u"⟩).matched :=
  ⟨by simp, C5_xbt_btc_alias _ _ _ (by simp)⟩

/-- C6: for Bitcoin, a trimmed legacy base58 address (one whose lower-cased
form carries no bech32 human-readable part) is left unchanged by
`canonicalize`; against a sanctioned set holding exactly that one stored
form, the stored exact-case form screens as a match while a mixed-case
corruption of it (same letters up to case, different string) does not. -/
theorem C6_base58_case_sensitivity (s a : PyStr) (V : ListVersion)
    (hs_trim : pyStrip s = s)
    (hs_hrp : hasBech32Hrp (pyLower s) = false)
    (hs_valid : syntactic_validate (pystr "BTC") s = true)
    (ha_trim : pyStrip a = a)
    (hcase : pyLower a = pyLower s)
    (hne : a ≠ s) :
    canonicalize (pystr "BTC") s = s ∧
    (screen_exact_match (pystr "BTC") s {(pystr "BTC", s)} V).matched = true ∧
    (screen_exact_match (pystr "BTC") a {(pystr "BTC", s)} V).matched = false := by
  have hbe : pyStrip (pyUpper (pystr "BTC")) ∉ evmChains := by decide
  have hbb : pyStrip (pyUpper (pystr "BTC")) ∈ btcChains := by decide
  have hub : pyUpper (pystr "BTC") = pystr "BTC" := by decide
  have hcs : canonicalize (pystr "BTC") s = s := by
    rw [canonicalize_btc s hbe hbb, hs_trim, hs_hrp]
    simp
  refine ⟨hcs, ?_, ?_⟩
  · rw [screen_eq_of_valid _ V hs_valid, hcs, hub,
      if_pos (Finset.mem_singleton_self _)]
  · by_cases hav : syntactic_validate (pystr "BTC") a = true
    · have hca : canonicalize (pystr "BTC") a = a := by
        rw [canonicalize_btc a hbe hbb, ha_trim, hcase, hs_hrp]
        simp
      have hnm : (pystr "BTC", a) ∉ ({(pystr "BTC", s)} : Finset (PyStr × PyStr)) := by
        rw [Finset.mem_singleton]
        intro hx
        exact hne (congrArg Prod.snd hx)
      rw [screen_eq_of_valid _ V hav, hca, hub, if_neg hnm]
    · rw [Bool.not_eq_true] at hav
      rw [screen_eq_of_invalid _ V hav]

theorem C6_base58_case_sensitivity_witness :
    pyStrip (pystr "1BvBMSEYstWetqTFn5Au4m4GFg7xJaNVN2") =
      pystr "1BvBMSEYstWetqTFn5Au4m4GFg7xJaNVN2" ∧
    hasBech32Hrp (pyLower (pystr "1BvBMSEYstWetqTFn5Au4m4GFg7xJaNVN2")) = false ∧
    syntactic_validate (pystr "BTC")
      (pystr "1BvBMSEYstWetqTFn5Au4m4GFg7xJaNVN2") = true ∧
    pyStrip (pystr "1bvbmseystwetqtfn5au4m4gfg7xjanvn2") =
      pystr "1bvbmseystwetqtfn5au4m4gfg7xjanvn2" ∧
    pyLower (pystr "1bvbmseystwetqtfn5au4m4gfg7xjanvn2") =
      pyLower (pystr "1BvBMSEYstWetqTFn5Au4m4GFg7xJaNVN2") ∧
    pystr "1bvbmseystwetqtfn5au4m4gfg7xjanvn2" ≠
      pystr "1BvBMSEYstWetqTFn5Au4m4GFg7xJaNVN2" ∧
    (canonicalize (pystr "BTC") (pystr "1BvBMSEYstWetqTFn5Au4m4GFg7xJaNVN2") =
        pystr "1BvBMSEYstWetqTFn5Au4m4GFg7xJaNVN2" ∧
      (screen_exact_match (pystr "BTC")
          (pystr "1BvBMSEYstWetqTFn5Au4m4GFg7xJaNVN2")
          {(pystr "BTC", pystr "1BvBMSEYstWetqTFn5Au4m4GFg7xJaNVN2")}
          ⟨pystr "DEMO", pystr "2026-02-15T00:00:00", pystr "d", pystr "u"⟩).matched = true ∧
      (screen_exact_match (pystr "BTC")
          (pystr "1bvbmseystwetqtfn5au4m4gfg7xjanvn2")
          {(pystr "BTC", pystr "1BvBMSEYstWetqTFn5Au4m4GFg7xJaNVN2")}
          ⟨pystr "DEMO", pystr "2026-02-15T00:00:00", pystr "d", pystr "u"⟩).matched = false) :=
  ⟨by decide, by decide, by decide, by decide, by decide, by decide,
    C6_base58_case_sensitivity _ _ _ (by decide) (by decide) (by decide)
      (by decide) (by decide) (by decide)⟩

/-- C7 counterexample: with the lower-case form of a 40-hex-digit EVM
address stored in the set, screening its lower-case form hits, but
screening its upper-case form misses: upper-casing the whole address turns
the `0x` into `0X`, which the validator rejects, so the match verdict is
not invariant under changing the letter case of the address. -/
theorem C7_counterexample :
    ¬ ((screen_exact_match (pystr "ETH")
          (pystr "0X7F367CC41522CE07553E823BF3BE79A889DEBE1B")
          {(pystr "ETH", pystr "0x7f367cc41522ce07553e823bf3be79a889debe1b")}
          ⟨pystr "DEMO", pystr "2026-02-15T00:00:00", pystr "d", pystr "u"⟩).matched =
        (screen_exact_match (pystr "ETH")
          (pystr "0x7f367cc41522ce07553e823bf3be79a889debe1b")
          {(pystr "ETH", pystr "0x7f367cc41522ce07553e823bf3be79a889debe1b")}
          ⟨pystr "DEMO", pystr "2026-02-15T00:00:00", pystr "d", pystr "u"⟩).matched) := by
  decide

theorem pyStrip_0x_map (g : Nat → Nat) (t : PyStr)
    (h : ∀ c ∈ t, pyIsSpace (g c) = false) :
    pyStrip (pystr "0x" ++ t.map g) = pystr "0x" ++ t.map g := by
  apply pyStrip_eq_self_of_no_space
  intro c hc
  have he : pystr "0x" ++ t.map g = 48 :: 120 :: t.map g := rfl
  rw [he] at hc
  rcases hc with _ | ⟨_, hc⟩
  · decide
  · rcases hc with _ | ⟨_, hc⟩
    · decide
    · rcases List.mem_map.mp hc with ⟨d, hd, rfl⟩
      exact h d hd

theorem EVM_RE_0x_map (g : Nat → Nat) (t : PyStr) (hlen : t.length = 40)
    (h : ∀ c ∈ t, isHexDigit (g c) = true) :
    EVM_RE (pystr "0x" ++ t.map g) = true := by
  have he : pystr "0x" ++ t.map g = 48 :: 120 :: t.map g := rfl
  rw [he]
  simp only [EVM_RE, Bool.and_eq_true, beq_iff_eq, decide_eq_true_eq,
    List.all_eq_true]
  refine ⟨⟨⟨trivial, trivial⟩, by simp [hlen]⟩, ?_⟩
  intro c hc
  rcases List.mem_map.mp hc with ⟨d, hd, rfl⟩
  exact h d hd

/-- C7 (amended): the match verdict of screening on chain `ETH` is
invariant under changing the letter case of the 40 hexadecimal digits of
an EVM address while the `0x` stays lower-case: for every 40-hex-digit
string, screening `0x` followed by its upper-cased digits and `0x`
followed by its lower-cased digits yield the same verdict against the same
set. -/
theorem C7_evm_case_invariance (t : PyStr) (S : Finset (PyStr × PyStr))
    (V : ListVersion) (hlen : t.length = 40)
    (hhex : ∀ c ∈ t, isHexDigit c = true) :
    (screen_exact_match (pystr "ETH") (pystr "0x" ++ pyUpper t) S V).matched =
      (screen_exact_match (pystr "ETH") (pystr "0x" ++ pyLower t) S V).matched := by
  have hce : pyStrip (pyUpper (pystr "ETH")) ∈ evmChains := by decide
  have hhexU : ∀ c ∈ t, isHexDigit (pyUpperChar c) = true := by
    intro c hc
    rw [isHexDigit_pyUpperChar]
    exact hhex c hc
  have hhexL : ∀ c ∈ t, isHexDigit (pyLowerChar c) = true := by
    intro c hc
    rw [isHexDigit_pyLowerChar]
    exact hhex c hc
  have hstripU : pyStrip (pystr "0x" ++ pyUpper t) = pystr "0x" ++ pyUpper t :=
    pyStrip_0x_map pyUpperChar t
      (fun c hc => pyIsSpace_eq_false_of_isHexDigit _ (hhexU c hc))
  have hstripL : pyStrip (pystr "0x" ++ pyLower t) = pystr "0x" ++ pyLower t :=
    pyStrip_0x_map pyLowerChar t
      (fun c hc => pyIsSpace_eq_false_of_isHexDigit _ (hhexL c hc))
  have hvU : syntactic_validate (pystr "ETH") (pystr "0x" ++ pyUpper t) = true := by
    rw [syntactic_validate_evm _ hce, hstripU]
    exact EVM_RE_0x_map pyUpperChar t hlen hhexU
  have hvL : syntactic_validate (pystr "ETH") (pystr "0x" ++ pyLower t) = true := by
    rw [syntactic_validate_evm _ hce, hstripL]
    exact EVM_RE_0x_map pyLowerChar t hlen hhexL
  have h0 : pyLower (pystr "0x") = pystr "0x" := by decide
  have hcanU : canonicalize (pystr "ETH") (pystr "0x" ++ pyUpper t) =
      pystr "0x" ++ pyLower t := by
    rw [canonicalize_evm _ hce, hstripU]
    calc pyLower (pystr "0x" ++ pyUpper t)
        = pyLower (pystr "0x") ++ pyLower (pyUpper t) := by
          simp [pyLower]
      _ = pystr "0x" ++ pyLower t := by rw [h0, pyLower_pyUpper]
  have hcanL : canonicalize (pystr "ETH") (pystr "0x" ++ pyLower t) =
      pystr "0x" ++ pyLower t := by
    rw [canonicalize_evm _ hce, hstripL]
    calc pyLower (pystr "0x" ++ pyLower t)
        = pyLower (pystr "0x") ++ pyLower (pyLower t) := by
          simp [pyLower]
      _ = pystr "0x" ++ pyLower t := by rw [h0, pyLower_pyLower]
  rw [screen_eq_of_valid S V hvU, screen_eq_of_valid S V hvL, hcanU, hcanL]
  by_cases hm : (pyUpper (pystr "ETH"), pystr "0x" ++ pyLower t) ∈ S
  · rw [if_pos hm, if_pos hm]
  · rw [if_neg hm, if_neg hm]

theorem C7_evm_case_invariance_witness :
    (pystr "7f367cc41522ce07553e823bf3be79a889debe1b").length = 40 ∧
    (∀ c ∈ pystr "7f367cc41522ce07553e823bf3be79a889debe1b",
      isHexDigit c = true) ∧
    (screen_exact_match (pystr "ETH")
        (pystr "0x" ++ pyUpper (pystr "7f367cc41522ce07553e823bf3be79a889debe1b"))
        {(pystr "ETH", pystr "0x7f367cc41522ce07553e823bf3be79a889debe1b")}
        ⟨pystr "DEMO", pystr "2026-02-15T00:00:00", pystr "d", pystr "u"⟩).matched =
      (screen_exact_match (pystr "ETH")
        (pystr "0x" ++ pyLower (pystr "7f367cc41522ce07553e823bf3be79a889debe1b"))
        {(pystr "ETH", pystr "0x7f367cc41522ce07553e823bf3be79a889debe1b")}
        ⟨pystr "DEMO", pystr "2026-02-15T00:00:00", pystr "d", pystr "u"⟩).matched :=
  ⟨by decide, by decide, C7_evm_case_invariance _ _ _ (by decide) (by decide)⟩
